import Mathlib

/-!
Shallow embedding of the SmartWinnr chat backend core: the Message and
ChatRoom models, the socket chat handlers, the presence registry kept in
the socket layer, and the fanout helper notifyParticipants.

Sources: the Message schema and methods (softDelete, editContent, toJSON),
the ChatRoom schema and methods (isParticipant, updateLastRead), the chat
event handlers (handleSendMessage, handleEditMessage, handleDeleteMessage,
handleMarkAsRead, notifyParticipants) and the socket initialization code
(connection handler, disconnect handler, message/typing/read dispatchers,
io.getOnlineUsers, io.isUserOnline, io.getUserSockets).

Identifiers (ObjectIds, socket ids) are modelled as String, compared the
way the source compares them (toString equality). Timestamps are Nat.
JavaScript Map objects are modelled as association lists with the Map
insertion semantics (set replaces in place or appends, delete removes the
entry); JavaScript Set objects are lists without duplicates in insertion
order. A promise that may reject is modelled as Except String. A field
deleted from a JSON object is modelled as the none value of an Option.
-/

namespace Chat

/-! ### Message model -/

/-- The fixed placeholder written over the content of a deleted message. -/
def deletedContentPlaceholder : String := "This message has been deleted"

/-- Media attachment subdocument of a message. -/
structure Media where
  url : Option String := none
  publicId : Option String := none
  filename : Option String := none
  mimetype : Option String := none
  size : Option Nat := none
deriving Repr, DecidableEq

/-- A stored chat message (the Message schema). -/
structure Message where
  id : String
  chatRoom : String
  sender : String
  content : String := ""
  messageType : String := "text"
  media : Option Media := none
  replyTo : Option String := none
  isDeleted : Bool := false
  deletedAt : Option Nat := none
  isEdited : Bool := false
  editedAt : Option Nat := none
  createdAt : Nat := 0
deriving Repr, DecidableEq

/-- softDelete: mark deleted, stamp deletedAt, overwrite content with the
placeholder and clear the media attachment. -/
def Message.softDelete (m : Message) (now : Nat) : Message :=
  { m with
    isDeleted := true
    deletedAt := some now
    content := deletedContentPlaceholder
    media := none }

/-- editContent: replace content, mark edited, stamp editedAt. -/
def Message.editContent (m : Message) (newContent : String) (now : Nat) : Message :=
  { m with
    content := newContent
    isEdited := true
    editedAt := some now }

/-- toJSON: the client-facing serialization. It copies the stored object
and, when the message is deleted, replaces content with the placeholder
and removes the media field. -/
def Message.toJSON (m : Message) : Message :=
  if m.isDeleted then
    { m with content := deletedContentPlaceholder, media := none }
  else
    m

/-! ### ChatRoom model -/

/-- One entry of the participants array of a chat room. -/
structure Participant where
  user : String
  role : String := "member"
  joinedAt : Nat := 0
  lastRead : Nat := 0
deriving Repr, DecidableEq

/-- A chat room (the ChatRoom schema). -/
structure ChatRoom where
  id : String
  name : String := ""
  roomType : String := "private"
  participants : List Participant := []
  creator : String := ""
  lastMessage : Option String := none
  isActive : Bool := true
deriving Repr, DecidableEq

/-- isParticipant: some participant has the given user id. -/
def ChatRoom.isParticipant (room : ChatRoom) (userId : String) : Bool :=
  room.participants.any (fun p => p.user == userId)

/-- updateLastRead: stamp the lastRead of the matching participant. -/
def ChatRoom.updateLastRead (room : ChatRoom) (userId : String) (now : Nat) : ChatRoom :=
  { room with
    participants :=
      room.participants.map (fun p => if p.user == userId then { p with lastRead := now } else p) }

/-! ### Persisted store (the Mongo collections the handlers read and write) -/

/-- The persisted collections touched by the chat handlers. -/
structure DB where
  rooms : List ChatRoom := []
  messages : List Message := []
deriving Repr, DecidableEq

/-- ChatRoom.findById. -/
def DB.findRoom (db : DB) (roomId : String) : Option ChatRoom :=
  db.rooms.find? (fun r => r.id == roomId)

/-- Message.findById. -/
def DB.findMessage (db : DB) (messageId : String) : Option Message :=
  db.messages.find? (fun m => m.id == messageId)

/-- message.save() on an existing document: replace the stored version. -/
def DB.saveMessage (db : DB) (m : Message) : DB :=
  { db with messages := db.messages.map (fun x => if x.id == m.id then m else x) }

/-- chatRoom.save() on an existing document: replace the stored version. -/
def DB.saveRoom (db : DB) (r : ChatRoom) : DB :=
  { db with rooms := db.rooms.map (fun x => if x.id == r.id then r else x) }

/-- Message.create: append a new document. -/
def DB.insertMessage (db : DB) (m : Message) : DB :=
  { db with messages := db.messages ++ [m] }

/-! ### Chat event handlers (chatHandler module) -/

/-- handleSendMessage: look up the room, reject a missing room and a
non-participant sender, create the message, update the lastMessage of
the room. The new document id and the clock are inputs of the model. -/
def handleSendMessage (db : DB) (userId chatRoomId content : String)
    (replyTo : Option String) (newMessageId : String) (now : Nat) :
    Except String (DB × Message) :=
  match db.findRoom chatRoomId with
  | none => .error "Chat room not found"
  | some chatRoom =>
    if !(chatRoom.isParticipant userId) then
      .error "You are not a member of this chat room"
    else
      let message : Message :=
        { id := newMessageId
          chatRoom := chatRoomId
          sender := userId
          content := content
          messageType := "text"
          replyTo := replyTo
          createdAt := now }
      let db1 := db.insertMessage message
      let db2 := db1.saveRoom { chatRoom with lastMessage := some message.id }
      .ok (db2, message)

/-- handleEditMessage: look up the message, reject a missing message, a
non-owner editor and a deleted message, then edit and save. -/
def handleEditMessage (db : DB) (userId messageId content : String) (now : Nat) :
    Except String (DB × Message) :=
  match db.findMessage messageId with
  | none => .error "Message not found"
  | some message =>
    if message.sender != userId then
      .error "You can only edit your own messages"
    else if message.isDeleted then
      .error "Cannot edit deleted message"
    else
      let edited := message.editContent content now
      .ok (db.saveMessage edited, edited)

/-- handleDeleteMessage: look up the message, reject a missing message and
a non-owner, then soft delete and save. There is no check that the
message is not already deleted. -/
def handleDeleteMessage (db : DB) (userId messageId : String) (now : Nat) :
    Except String (DB × String × String) :=
  match db.findMessage messageId with
  | none => .error "Message not found"
  | some message =>
    if message.sender != userId then
      .error "You can only delete your own messages"
    else
      let chatRoomId := message.chatRoom
      let deleted := message.softDelete now
      .ok (db.saveMessage deleted, messageId, chatRoomId)

/-- handleMarkAsRead: look up the room, reject a missing room and a
non-participant, then stamp lastRead. -/
def handleMarkAsRead (db : DB) (userId chatRoomId : String) (now : Nat) :
    Except String DB :=
  match db.findRoom chatRoomId with
  | none => .error "Chat room not found"
  | some chatRoom =>
    if !(chatRoom.isParticipant userId) then
      .error "You are not a member of this chat room"
    else
      .ok (db.saveRoom (chatRoom.updateLastRead userId now))

/-! ### Emissions (socket.io emit targets) -/

/-- The broadcast target of one emit call. -/
inductive Channel where
  | roomCh (roomId : String)
  | roomExceptSelf (roomId : String) (socketId : String)
  | userCh (userId : String)
  | selfCh (socketId : String)
  | broadcastCh (socketId : String)
deriving Repr, DecidableEq

/-- The server-to-client events the socket layer emits. -/
inductive Event where
  | userOnline (userId username : String)
  | userOffline (userId : String) (lastSeen : Nat)
  | usersOnline (userIds : List String)
  | messageNew (messageId : String)
  | messageEdited (messageId : String)
  | messageDeleted (messageId chatRoomId : String)
  | typingStart (userId username chatRoomId : String)
  | typingStop (userId chatRoomId : String)
  | messagesRead (userId chatRoomId : String)
  | notificationMessage (chatRoomId messageId : String)
  | errorEvent (message : String)
deriving Repr, DecidableEq

/-- One emit call: a channel and an event. -/
structure Emission where
  channel : Channel
  event : Event
deriving Repr, DecidableEq

/-! ### notifyParticipants (fanout to private channels) -/

/-- The loop body of notifyParticipants over the participants array: skip
the sender, emit a notification on the private channel of every other
participant. The emitOk oracle models a fault in one emit call: the
thrown error aborts the rest of the loop (the emissions already made
stand) and is caught by the surrounding try/catch. -/
def notifyLoop (emitOk : String → Bool) (chatRoomId : String) (message : Message) :
    List Participant → List Emission
  | [] => []
  | p :: rest =>
    if p.user == message.sender then
      notifyLoop emitOk chatRoomId message rest
    else if emitOk p.user then
      { channel := .userCh p.user, event := .notificationMessage chatRoomId message.id } ::
        notifyLoop emitOk chatRoomId message rest
    else
      []

/-- notifyParticipants: look up the room and notify every participant but
the sender on their private channel. The whole body is inside try/catch:
a rejected lookup or a missing room produces no emissions and no error
escapes to the caller. The userSockets argument is accepted and unused,
as in the source. -/
def notifyParticipants (userSockets : List (String × List String))
    (lookupResult : Except String (Option ChatRoom)) (emitOk : String → Bool)
    (chatRoomId : String) (message : Message) : List Emission :=
  match lookupResult with
  | .error _ => []
  | .ok none => []
  | .ok (some chatRoom) => notifyLoop emitOk chatRoomId message chatRoom.participants

/-! ### JavaScript Map and Set operations -/

/-- Map.get / Map.has: first entry with the key. -/
def mapFind (k : String) : List (String × α) → Option α
  | [] => none
  | (k2, v) :: rest => if k2 = k then some v else mapFind k rest

/-- Map.set: replace in place when the key exists, else append. -/
def mapSet (k : String) (v : α) : List (String × α) → List (String × α)
  | [] => [(k, v)]
  | (k2, v2) :: rest => if k2 = k then (k, v) :: rest else (k2, v2) :: mapSet k v rest

/-- Map.delete: remove the entry with the key. -/
def mapDelete (k : String) : List (String × α) → List (String × α)
  | [] => []
  | (k2, v) :: rest => if k2 = k then rest else (k2, v) :: mapDelete k rest

/-- Map.keys as a list, in entry order. -/
def mapKeys (l : List (String × α)) : List String :=
  l.map Prod.fst

/-- Set.add: append when not yet present. -/
def setAdd (x : String) (s : List String) : List String :=
  if x ∈ s then s else s ++ [x]

/-- Set.delete: remove the element. -/
def setDelete (x : String) (s : List String) : List String :=
  s.filter (fun y => y ≠ x)

/-! ### Socket layer state (the two presence maps and channel membership) -/

/-- The in-memory state of the socket layer: onlineUsers maps socket id to
user id, userSockets maps user id to the set of live socket ids, and
roomMembers records which sockets are joined to each room channel
(held by socket.io through socket.join and socket.leave). -/
structure SocketState where
  onlineUsers : List (String × String) := []
  userSockets : List (String × List String) := []
  roomMembers : List (String × List String) := []
deriving Repr, DecidableEq

/-- io.getOnlineUsers: the keys of userSockets, deduplicated through a Set. -/
def getOnlineUsers (st : SocketState) : List String :=
  (mapKeys st.userSockets).dedup

/-- io.isUserOnline: userSockets.has(userId). -/
def isUserOnline (st : SocketState) (userId : String) : Bool :=
  (mapFind userId st.userSockets).isSome

/-- io.getUserSockets: the socket set of the user, empty when absent. -/
def getUserSockets (st : SocketState) (userId : String) : List String :=
  (mapFind userId st.userSockets).getD []

/-- The connection handler: record the socket in onlineUsers, create the
socket set of the user when missing, add the socket, broadcast a
user:online event to everyone else, and send the online user list to the
new socket. The user:online broadcast is unconditional: it happens on
every connection, whether or not the user was already online. -/
def connect (st : SocketState) (socketId userId username : String) :
    SocketState × List Emission :=
  let onlineUsers2 := mapSet socketId userId st.onlineUsers
  let userSockets1 :=
    if (mapFind userId st.userSockets).isSome then st.userSockets
    else mapSet userId [] st.userSockets
  let userSockets2 :=
    match mapFind userId userSockets1 with
    | some s => mapSet userId (setAdd socketId s) userSockets1
    | none => userSockets1
  let st2 : SocketState :=
    { st with onlineUsers := onlineUsers2, userSockets := userSockets2 }
  (st2,
    [{ channel := .broadcastCh socketId, event := .userOnline userId username },
     { channel := .selfCh socketId, event := .usersOnline (getOnlineUsers st2) }])

/-- The disconnect handler: drop the socket from onlineUsers; when the
user has a socket set, remove the socket from it, and only when the set
becomes empty delete the user entry and broadcast user:offline. -/
def disconnect (st : SocketState) (socketId userId : String) (now : Nat) :
    SocketState × List Emission :=
  let onlineUsers2 := mapDelete socketId st.onlineUsers
  match mapFind userId st.userSockets with
  | none => ({ st with onlineUsers := onlineUsers2 }, [])
  | some s =>
    let s2 := setDelete socketId s
    if s2 = [] then
      ({ st with
          onlineUsers := onlineUsers2
          userSockets := mapDelete userId st.userSockets },
        [{ channel := .broadcastCh socketId, event := .userOffline userId now }])
    else
      ({ st with
          onlineUsers := onlineUsers2
          userSockets := mapSet userId s2 st.userSockets }, [])

/-- room:join handler: socket.join on the room channel. -/
def joinRoom (st : SocketState) (socketId roomId : String) : SocketState :=
  let cur := (mapFind roomId st.roomMembers).getD []
  { st with roomMembers := mapSet roomId (setAdd socketId cur) st.roomMembers }

/-- room:leave handler: socket.leave on the room channel. -/
def leaveRoom (st : SocketState) (socketId roomId : String) : SocketState :=
  match mapFind roomId st.roomMembers with
  | none => st
  | some s => { st with roomMembers := mapSet roomId (setDelete socketId s) st.roomMembers }

/-- Whether a socket is joined to a room channel. -/
def sockJoinedToRoom (st : SocketState) (socketId roomId : String) : Bool :=
  socketId ∈ (mapFind roomId st.roomMembers).getD []

/-! ### Presence event traces -/

/-- Presence-level operations on the socket layer. -/
inductive SockOp where
  | connect (socketId userId username : String)
  | disconnect (socketId userId : String) (now : Nat)
  | joinRoom (socketId roomId : String)
  | leaveRoom (socketId roomId : String)
deriving Repr, DecidableEq

/-- One presence step. -/
def step (st : SocketState) : SockOp → SocketState × List Emission
  | .connect s u n => connect st s u n
  | .disconnect s u t => disconnect st s u t
  | .joinRoom s r => (joinRoom st s r, [])
  | .leaveRoom s r => (leaveRoom st s r, [])

/-- Run a list of presence operations, accumulating emissions. -/
def run (st : SocketState) : List SockOp → SocketState × List Emission
  | [] => (st, [])
  | op :: rest =>
    let r1 := step st op
    let r2 := run r1.1 rest
    (r2.1, r1.2 ++ r2.2)

/-- Number of user:online broadcasts for a user in an emission list. -/
def onlineBroadcasts (userId : String) (es : List Emission) : Nat :=
  (es.filter (fun e =>
    match e.event with
    | .userOnline u2 _ => u2 == userId
    | _ => false)).length

/-- Number of user:offline broadcasts for a user in an emission list. -/
def offlineBroadcasts (userId : String) (es : List Emission) : Nat :=
  (es.filter (fun e =>
    match e.event with
    | .userOffline u2 _ => u2 == userId
    | _ => false)).length

/-- Number of notification:message emissions on the private channel of a
user in an emission list. -/
def notificationsTo (userId : String) (es : List Emission) : Nat :=
  (es.filter (fun e =>
    match e with
    | { channel := .userCh u2, event := .notificationMessage _ _ } => u2 == userId
    | _ => false)).length

/-- The trace in which one user opens a list of connections and then
closes all of them, in order. -/
def openCloseTrace (userId username : String) (socks : List String) (t : Nat) :
    List SockOp :=
  socks.map (fun c => SockOp.connect c userId username) ++
    socks.map (fun c => SockOp.disconnect c userId t)

/-! ### Socket event dispatchers (initializeSocket) -/

/-- The message:send dispatcher: run the handler; on failure emit an error
event to the acting socket only; on success emit message:new on the room
channel and run notifyParticipants against the saved state. -/
def onMessageSend (st : SocketState) (db : DB) (socketId userId : String)
    (chatRoomId content : String) (replyTo : Option String)
    (newMessageId : String) (now : Nat) (emitOk : String → Bool) :
    DB × List Emission :=
  match handleSendMessage db userId chatRoomId content replyTo newMessageId now with
  | .error e => (db, [{ channel := .selfCh socketId, event := .errorEvent e }])
  | .ok (db2, message) =>
    (db2,
      { channel := .roomCh chatRoomId, event := .messageNew message.id } ::
        notifyParticipants st.userSockets (.ok (db2.findRoom chatRoomId)) emitOk
          chatRoomId message)

/-- The message:edit dispatcher. -/
def onMessageEdit (db : DB) (socketId userId messageId content : String) (now : Nat) :
    DB × List Emission :=
  match handleEditMessage db userId messageId content now with
  | .error e => (db, [{ channel := .selfCh socketId, event := .errorEvent e }])
  | .ok (db2, message) =>
    (db2, [{ channel := .roomCh message.chatRoom, event := .messageEdited message.id }])

/-- The message:delete dispatcher. -/
def onMessageDelete (db : DB) (socketId userId messageId : String) (now : Nat) :
    DB × List Emission :=
  match handleDeleteMessage db userId messageId now with
  | .error e => (db, [{ channel := .selfCh socketId, event := .errorEvent e }])
  | .ok (db2, mid, roomId) =>
    (db2, [{ channel := .roomCh roomId, event := .messageDeleted mid roomId }])

/-- The typing:start dispatcher: no lookup and no validation, a single
emission to the room channel excluding the sender socket. -/
def onTypingStart (socketId userId username chatRoomId : String) : List Emission :=
  [{ channel := .roomExceptSelf chatRoomId socketId,
     event := .typingStart userId username chatRoomId }]

/-- The typing:stop dispatcher: no lookup and no validation. -/
def onTypingStop (socketId userId chatRoomId : String) : List Emission :=
  [{ channel := .roomExceptSelf chatRoomId socketId,
     event := .typingStop userId chatRoomId }]

/-- The messages:read dispatcher. -/
def onMessagesRead (db : DB) (socketId userId chatRoomId : String) (now : Nat) :
    DB × List Emission :=
  match handleMarkAsRead db userId chatRoomId now with
  | .error e => (db, [{ channel := .selfCh socketId, event := .errorEvent e }])
  | .ok db2 =>
    (db2, [{ channel := .roomExceptSelf chatRoomId socketId,
             event := .messagesRead userId chatRoomId }])

/-! ### Lemmas about the Map and Set operations -/

theorem mapFind_mapSet_self (k : String) (v : α) (l : List (String × α)) :
    mapFind k (mapSet k v l) = some v := by
  induction l with
  | nil => simp [mapSet, mapFind]
  | cons hd t ih =>
    obtain ⟨a, b⟩ := hd
    by_cases hk : a = k
    · simp [mapSet, hk, mapFind]
    · simp [mapSet, hk, mapFind, ih]

theorem mapFind_mapSet_ne (k k2 : String) (v : α) (l : List (String × α)) (h : k2 ≠ k) :
    mapFind k (mapSet k2 v l) = mapFind k l := by
  induction l with
  | nil => simp [mapSet, mapFind, h]
  | cons hd t ih =>
    obtain ⟨a, b⟩ := hd
    by_cases hk : a = k2
    · subst hk
      simp [mapSet, mapFind, h]
    · simp [mapSet, hk, mapFind, ih]

theorem mapSet_mapSet (k : String) (v1 v2 : α) (l : List (String × α)) :
    mapSet k v2 (mapSet k v1 l) = mapSet k v2 l := by
  induction l with
  | nil => simp [mapSet]
  | cons hd t ih =>
    obtain ⟨a, b⟩ := hd
    by_cases hk : a = k
    · simp [mapSet, hk]
    · simp [mapSet, hk, ih]

theorem mapDelete_of_find_none (k : String) (l : List (String × α))
    (h : mapFind k l = none) : mapDelete k l = l := by
  induction l with
  | nil => simp [mapDelete]
  | cons hd t ih =>
    obtain ⟨a, b⟩ := hd
    by_cases hk : a = k
    · simp [mapFind, hk] at h
    · simp only [mapFind, if_neg hk] at h
      simp [mapDelete, hk, ih h]

theorem mapSet_of_find_self (k : String) (v : α) (l : List (String × α))
    (h : mapFind k l = some v) : mapSet k v l = l := by
  induction l with
  | nil => simp [mapFind] at h
  | cons hd t ih =>
    obtain ⟨a, b⟩ := hd
    by_cases hk : a = k
    · simp only [mapFind, if_pos hk] at h
      injection h with h
      subst hk
      subst h
      simp [mapSet]
    · simp only [mapFind, if_neg hk] at h
      simp [mapSet, hk, ih h]

theorem mapFind_mem (k : String) (v : α) (l : List (String × α))
    (h : mapFind k l = some v) : (k, v) ∈ l := by
  induction l with
  | nil => simp [mapFind] at h
  | cons hd t ih =>
    obtain ⟨a, b⟩ := hd
    by_cases hk : a = k
    · simp only [mapFind, if_pos hk] at h
      injection h with h
      subst hk
      subst h
      exact List.mem_cons_self _ _
    · simp only [mapFind, if_neg hk] at h
      exact List.mem_cons_of_mem _ (ih h)

theorem mapFind_isSome_iff_mem_keys (k : String) (l : List (String × α)) :
    (mapFind k l).isSome = true ↔ k ∈ mapKeys l := by
  induction l with
  | nil => simp [mapFind, mapKeys]
  | cons hd t ih =>
    obtain ⟨a, b⟩ := hd
    by_cases hk : a = k
    · simp [mapFind, hk, mapKeys]
    · simp only [mapFind, if_neg hk, mapKeys, List.map_cons, List.mem_cons]
      rw [mapKeys] at ih
      rw [ih]
      constructor
      · exact Or.inr
      · rintro (h | h)
        · exact absurd h.symm hk
        · exact h

theorem mem_mapKeys_mapSet (a k : String) (v : α) (l : List (String × α)) :
    a ∈ mapKeys (mapSet k v l) ↔ a = k ∨ a ∈ mapKeys l := by
  induction l with
  | nil => simp [mapSet, mapKeys]
  | cons hd t ih =>
    obtain ⟨c, b⟩ := hd
    by_cases hk : c = k
    · subst hk
      by_cases ha : a = c <;> simp [mapSet, mapKeys, ha]
    · simp only [mapSet, if_neg hk, mapKeys, List.map_cons, List.mem_cons]
      rw [mapKeys] at ih
      rw [ih]
      tauto

theorem mapKeys_nodup_mapSet (k : String) (v : α) (l : List (String × α))
    (h : (mapKeys l).Nodup) : (mapKeys (mapSet k v l)).Nodup := by
  induction l with
  | nil => simp [mapSet, mapKeys]
  | cons hd t ih =>
    obtain ⟨a, b⟩ := hd
    simp only [mapKeys, List.map_cons, List.nodup_cons] at h
    by_cases hk : a = k
    · subst hk
      have hset : mapSet a v ((a, b) :: t) = (a, v) :: t := by simp [mapSet]
      rw [hset]
      simp only [mapKeys, List.map_cons, List.nodup_cons]
      exact ⟨h.1, h.2⟩
    · simp only [mapSet, if_neg hk, mapKeys, List.map_cons, List.nodup_cons]
      refine ⟨?_, ih h.2⟩
      intro hmem
      rcases (mem_mapKeys_mapSet a k v t).mp hmem with h1 | h1
      · exact hk h1
      · exact h.1 h1

theorem mem_mapSet (p : String × α) (k : String) (v : α) (l : List (String × α))
    (h : p ∈ mapSet k v l) : p = (k, v) ∨ p ∈ l := by
  induction l with
  | nil =>
    simp [mapSet] at h
    left
    exact h
  | cons hd t ih =>
    obtain ⟨a, b⟩ := hd
    by_cases hk : a = k
    · simp only [mapSet, if_pos hk, List.mem_cons] at h
      rcases h with h | h
      · left; exact h
      · right; exact List.mem_cons_of_mem _ h
    · simp only [mapSet, if_neg hk, List.mem_cons] at h
      rcases h with h | h
      · right
        rw [h]
        exact List.mem_cons_self _ _
      · rcases ih h with h1 | h1
        · left; exact h1
        · right; exact List.mem_cons_of_mem _ h1

theorem mapDelete_sublist (k : String) (l : List (String × α)) :
    (mapDelete k l).Sublist l := by
  induction l with
  | nil => simp [mapDelete]
  | cons hd t ih =>
    obtain ⟨a, b⟩ := hd
    by_cases hk : a = k
    · simp only [mapDelete, if_pos hk]
      exact List.sublist_cons_self (a, b) t
    · simp only [mapDelete, if_neg hk]
      exact List.Sublist.cons₂ (a, b) ih

theorem setAdd_ne_nil (x : String) (s : List String) : setAdd x s ≠ [] := by
  by_cases h : x ∈ s
  · simp only [setAdd, if_pos h]
    intro hnil
    rw [hnil] at h
    exact List.not_mem_nil x h
  · simp [setAdd, if_neg h]

theorem setAdd_nodup (x : String) (s : List String) (h : s.Nodup) : (setAdd x s).Nodup := by
  by_cases hx : x ∈ s
  · simpa [setAdd, if_pos hx] using h
  · simp only [setAdd, if_neg hx]
    rw [List.nodup_append]
    refine ⟨h, List.nodup_singleton x, ?_⟩
    intro a ha hb
    simp only [List.mem_singleton] at hb
    subst hb
    exact hx ha

theorem setDelete_of_not_mem (x : String) (s : List String) (h : x ∉ s) :
    setDelete x s = s := by
  rw [setDelete, List.filter_eq_self]
  intro a ha
  simp only [decide_eq_true_eq]
  intro hax
  exact h (hax ▸ ha)

theorem setDelete_cons_self (x : String) (s : List String) (h : x ∉ s) :
    setDelete x (x :: s) = s := by
  have hx : (decide (x ≠ x)) = false := by simp
  rw [setDelete, List.filter_cons, hx]
  simp only [Bool.false_eq_true, if_false]
  exact setDelete_of_not_mem x s h

theorem setDelete_nodup (x : String) (s : List String) (h : s.Nodup) :
    (setDelete x s).Nodup := List.Nodup.filter _ h

/-! ### The registry invariant -/

/-- Well-formedness of the socket layer state: the keys of userSockets are
unique (it is a Map) and every recorded socket set is non-empty and
duplicate-free (it is a Set, and the last disconnect removes the entry). -/
def SocketState.WF (st : SocketState) : Prop :=
  (mapKeys st.userSockets).Nodup ∧
    ∀ p ∈ st.userSockets, p.2 ≠ [] ∧ p.2.Nodup

theorem WF_find_ne_nil (st : SocketState) (u : String) (s : List String)
    (hwf : st.WF) (h : mapFind u st.userSockets = some s) : s ≠ [] :=
  (hwf.2 (u, s) (mapFind_mem u s _ h)).1

theorem WF_find_nodup (st : SocketState) (u : String) (s : List String)
    (hwf : st.WF) (h : mapFind u st.userSockets = some s) : s.Nodup :=
  (hwf.2 (u, s) (mapFind_mem u s _ h)).2

/-- The userSockets component after a connect, as one Map update. -/
theorem connect_userSockets_eq (st : SocketState) (c u n : String) :
    (connect st c u n).1.userSockets =
      mapSet u (setAdd c ((mapFind u st.userSockets).getD [])) st.userSockets := by
  cases hfind : mapFind u st.userSockets with
  | none =>
    simp only [connect, hfind, Option.isSome_none, Bool.false_eq_true, if_false,
      mapFind_mapSet_self, Option.getD_some, Option.getD_none]
    exact mapSet_mapSet u [] (setAdd c []) st.userSockets
  | some s =>
    simp [connect, hfind]

theorem WF_connect (st : SocketState) (c u n : String) (hwf : st.WF) :
    (connect st c u n).1.WF := by
  constructor
  · rw [connect_userSockets_eq]
    exact mapKeys_nodup_mapSet _ _ _ hwf.1
  · intro p hp
    rw [connect_userSockets_eq] at hp
    rcases mem_mapSet p u _ st.userSockets hp with h1 | h1
    · subst h1
      refine ⟨setAdd_ne_nil _ _, setAdd_nodup _ _ ?_⟩
      cases hfind : mapFind u st.userSockets with
      | none => simp
      | some s => simpa using WF_find_nodup st u s hwf hfind
    · exact hwf.2 p h1

theorem WF_disconnect (st : SocketState) (c u : String) (t : Nat) (hwf : st.WF) :
    (disconnect st c u t).1.WF := by
  unfold disconnect
  cases hfind : mapFind u st.userSockets with
  | none => exact ⟨hwf.1, fun p hp => hwf.2 p hp⟩
  | some s =>
    by_cases hs : setDelete c s = []
    · simp only [hs, if_pos rfl]
      constructor
      · exact List.Nodup.sublist (List.Sublist.map _ (mapDelete_sublist u st.userSockets)) hwf.1
      · intro p hp
        exact hwf.2 p ((mapDelete_sublist u st.userSockets).subset hp)
    · simp only [hs, if_neg hs]
      constructor
      · exact mapKeys_nodup_mapSet _ _ _ hwf.1
      · intro p hp
        rcases mem_mapSet p u _ st.userSockets hp with h1 | h1
        · subst h1
          exact ⟨hs, setDelete_nodup c s (WF_find_nodup st u s hwf hfind)⟩
        · exact hwf.2 p h1

theorem WF_step (st : SocketState) (op : SockOp) (hwf : st.WF) : (step st op).1.WF := by
  cases op with
  | connect s u n => exact WF_connect st s u n hwf
  | disconnect s u t => exact WF_disconnect st s u t hwf
  | joinRoom s r => exact hwf
  | leaveRoom s r =>
    cases hfind : mapFind r st.roomMembers with
    | none => simpa [step, leaveRoom, hfind] using hwf
    | some m => simpa [step, leaveRoom, hfind] using hwf

theorem WF_empty : SocketState.WF {} := by
  constructor
  · simp [mapKeys]
  · intro p hp
    simp at hp

theorem WF_run (st : SocketState) (ops : List SockOp) (hwf : st.WF) :
    (run st ops).1.WF := by
  induction ops generalizing st with
  | nil => exact hwf
  | cons op rest ih => exact ih _ (WF_step st op hwf)

/-! ### Lemmas about presence traces -/

theorem run_nil (st : SocketState) : run st [] = (st, []) := rfl

theorem run_cons (st : SocketState) (op : SockOp) (rest : List SockOp) :
    run st (op :: rest) =
      ((run (step st op).1 rest).1, (step st op).2 ++ (run (step st op).1 rest).2) := rfl

theorem run_append (st : SocketState) (l1 l2 : List SockOp) :
    run st (l1 ++ l2) =
      ((run (run st l1).1 l2).1, (run st l1).2 ++ (run (run st l1).1 l2).2) := by
  induction l1 generalizing st with
  | nil => simp [run]
  | cons op rest ih =>
    simp only [List.cons_append, run_cons]
    rw [ih]
    simp [List.append_assoc]

theorem onlineBroadcasts_append (u : String) (es1 es2 : List Emission) :
    onlineBroadcasts u (es1 ++ es2) = onlineBroadcasts u es1 + onlineBroadcasts u es2 := by
  simp [onlineBroadcasts, List.filter_append]

theorem offlineBroadcasts_append (u : String) (es1 es2 : List Emission) :
    offlineBroadcasts u (es1 ++ es2) = offlineBroadcasts u es1 + offlineBroadcasts u es2 := by
  simp [offlineBroadcasts, List.filter_append]

theorem onlineBroadcasts_connect_self (st : SocketState) (c u n : String) :
    onlineBroadcasts u (connect st c u n).2 = 1 := by
  simp [connect, onlineBroadcasts, List.filter]

theorem offlineBroadcasts_connect (st : SocketState) (c u n u2 : String) :
    offlineBroadcasts u2 (connect st c u n).2 = 0 := by
  simp [connect, offlineBroadcasts, List.filter]

theorem onlineBroadcasts_disconnect (st : SocketState) (c u u2 : String) (t : Nat) :
    onlineBroadcasts u2 (disconnect st c u t).2 = 0 := by
  unfold disconnect
  cases hfind : mapFind u st.userSockets with
  | none => simp [onlineBroadcasts]
  | some s =>
    by_cases hs : setDelete c s = []
    · simp [hs, onlineBroadcasts, List.filter]
    · simp [hs, onlineBroadcasts]

theorem run_connects_online (u n : String) (cs : List String) (st : SocketState) :
    onlineBroadcasts u (run st (cs.map (fun c => SockOp.connect c u n))).2 = cs.length := by
  induction cs generalizing st with
  | nil => simp [run, onlineBroadcasts]
  | cons c rest ih =>
    simp only [List.map_cons, run_cons, step]
    rw [onlineBroadcasts_append, onlineBroadcasts_connect_self, ih]
    simp [Nat.add_comm]

theorem run_connects_offline (u n u2 : String) (cs : List String) (st : SocketState) :
    offlineBroadcasts u2 (run st (cs.map (fun c => SockOp.connect c u n))).2 = 0 := by
  induction cs generalizing st with
  | nil => simp [run, offlineBroadcasts]
  | cons c rest ih =>
    simp only [List.map_cons, run_cons, step]
    rw [offlineBroadcasts_append, offlineBroadcasts_connect, ih]

theorem run_disconnects_online (u n2 : String) (t : Nat) (cs : List String) (st : SocketState) :
    onlineBroadcasts n2 (run st (cs.map (fun c => SockOp.disconnect c u t))).2 = 0 := by
  induction cs generalizing st with
  | nil => simp [run, onlineBroadcasts]
  | cons c rest ih =>
    simp only [List.map_cons, run_cons, step]
    rw [onlineBroadcasts_append, onlineBroadcasts_disconnect, ih]

theorem run_connects_find (u n : String) (cs : List String) (st : SocketState)
    (base : List String) (h : (mapFind u st.userSockets).getD [] = base)
    (hnd : (base ++ cs).Nodup) :
    (mapFind u (run st (cs.map (fun c => SockOp.connect c u n))).1.userSockets).getD [] =
      base ++ cs := by
  induction cs generalizing st base with
  | nil => simpa [run] using h
  | cons c rest ih =>
    have hcb : c ∉ base := by
      rcases List.nodup_append.mp hnd with ⟨-, -, hdisj⟩
      intro hc
      exact hdisj hc (List.mem_cons_self c rest)
    have hstep : (mapFind u (connect st c u n).1.userSockets).getD [] = base ++ [c] := by
      rw [connect_userSockets_eq, mapFind_mapSet_self, Option.getD_some, h, setAdd,
        if_neg hcb]
    simp only [List.map_cons, run_cons, step]
    have hnd2 : ((base ++ [c]) ++ rest).Nodup := by
      rw [List.append_assoc]
      simpa using hnd
    have := ih (connect st c u n).1 (base ++ [c]) hstep hnd2
    rw [this, List.append_assoc]
    rfl

theorem run_disconnects_offline (u : String) (t : Nat) (cs : List String) (st : SocketState)
    (h : (mapFind u st.userSockets).getD [] = cs) (hnd : cs.Nodup) (hne : cs ≠ []) :
    offlineBroadcasts u (run st (cs.map (fun c => SockOp.disconnect c u t))).2 = 1 := by
  induction cs generalizing st with
  | nil => exact absurd rfl hne
  | cons c rest ih =>
    have hfind : mapFind u st.userSockets = some (c :: rest) := by
      cases hm : mapFind u st.userSockets with
      | none => rw [hm] at h; simp at h
      | some s => rw [hm] at h; rw [Option.getD_some] at h; rw [h]
    have hcn : c ∉ rest := (List.nodup_cons.mp hnd).1
    cases rest with
    | nil =>
      simp only [List.map_cons, List.map_nil, run_cons, run_nil, step, disconnect, hfind]
      rw [setDelete_cons_self c [] (by simp)]
      simp [offlineBroadcasts, List.filter]
    | cons c2 rest2 =>
      have hdel : setDelete c (c :: c2 :: rest2) = c2 :: rest2 :=
        setDelete_cons_self c (c2 :: rest2) hcn
      have hne2 : c2 :: rest2 ≠ ([] : List String) := by simp
      have hstepeq : step st (SockOp.disconnect c u t) =
          ({ st with
              onlineUsers := mapDelete c st.onlineUsers,
              userSockets := mapSet u (c2 :: rest2) st.userSockets }, []) := by
        simp only [step, disconnect, hfind, hdel, if_neg hne2]
      rw [List.map_cons, run_cons, hstepeq]
      dsimp only
      rw [offlineBroadcasts_append]
      have hih := ih ({ st with
          onlineUsers := mapDelete c st.onlineUsers,
          userSockets := mapSet u (c2 :: rest2) st.userSockets })
        (by simp [mapFind_mapSet_self]) (List.nodup_cons.mp hnd).2 (by simp)
      rw [hih]
      simp [offlineBroadcasts]

/-! ### Lemmas about notifyParticipants -/

theorem notificationsTo_cons_notification (u u2 rid mid : String) (es : List Emission) :
    notificationsTo u
        ({ channel := .userCh u2, event := .notificationMessage rid mid } :: es) =
      (if u2 = u then 1 else 0) + notificationsTo u es := by
  by_cases h : u2 = u <;>
    simp [notificationsTo, List.filter_cons, h, Nat.add_comm]

theorem notificationsTo_notifyLoop_eq_zero (u : String) (emitOk : String → Bool)
    (rid : String) (m : Message) (ps : List Participant)
    (hu : ∀ p ∈ ps, p.user ≠ u) :
    notificationsTo u (notifyLoop emitOk rid m ps) = 0 := by
  induction ps with
  | nil => rfl
  | cons p rest ih =>
    have hrest : ∀ q ∈ rest, q.user ≠ u := fun q hq => hu q (List.mem_cons_of_mem _ hq)
    by_cases hp : (p.user == m.sender) = true
    · simp only [notifyLoop, if_pos hp]
      exact ih hrest
    · by_cases he : emitOk p.user = true
      · simp only [notifyLoop, hp, if_false, Bool.false_eq_true, he, if_true]
        rw [notificationsTo_cons_notification]
        rw [if_neg (hu p (List.mem_cons_self _ _)), ih hrest]
      · simp only [notifyLoop, hp, Bool.false_eq_true, if_false, he]
        rfl

theorem notificationsTo_sender_notifyLoop (emitOk : String → Bool) (rid : String)
    (m : Message) (ps : List Participant) :
    notificationsTo m.sender (notifyLoop emitOk rid m ps) = 0 := by
  induction ps with
  | nil => rfl
  | cons p rest ih =>
    by_cases hp : (p.user == m.sender) = true
    · simp only [notifyLoop, if_pos hp]
      exact ih
    · by_cases he : emitOk p.user = true
      · simp only [notifyLoop, hp, Bool.false_eq_true, if_false, he, if_true]
        rw [notificationsTo_cons_notification]
        rw [if_neg (by simpa using hp), ih]
      · simp only [notifyLoop, hp, Bool.false_eq_true, if_false, he]
        rfl

theorem notificationsTo_notifyLoop_le_one (u : String) (emitOk : String → Bool)
    (rid : String) (m : Message) (ps : List Participant)
    (hnd : (ps.map Participant.user).Nodup) :
    notificationsTo u (notifyLoop emitOk rid m ps) ≤ 1 := by
  induction ps with
  | nil => exact Nat.zero_le 1
  | cons p rest ih =>
    simp only [List.map_cons, List.nodup_cons] at hnd
    by_cases hp : (p.user == m.sender) = true
    · simp only [notifyLoop, if_pos hp]
      exact ih hnd.2
    · by_cases he : emitOk p.user = true
      · simp only [notifyLoop, hp, Bool.false_eq_true, if_false, he, if_true]
        rw [notificationsTo_cons_notification]
        by_cases hu : p.user = u
        · rw [if_pos hu]
          have hz : notificationsTo u (notifyLoop emitOk rid m rest) = 0 := by
            refine notificationsTo_notifyLoop_eq_zero u emitOk rid m rest ?_
            intro q hq hqu
            exact hnd.1 (by rw [← hu] at hqu; rw [← hqu]; exact List.mem_map_of_mem _ hq)
          rw [hz]
        · rw [if_neg hu]
          simpa using ih hnd.2
      · simp only [notifyLoop, hp, Bool.false_eq_true, if_false, he]
        exact Nat.zero_le 1

theorem notificationsTo_notifyLoop_eq_one (p : Participant) (rid : String) (m : Message)
    (ps : List Participant) (hnd : (ps.map Participant.user).Nodup)
    (hp : p ∈ ps) (hne : p.user ≠ m.sender) :
    notificationsTo p.user (notifyLoop (fun _ => true) rid m ps) = 1 := by
  induction ps with
  | nil => simp at hp
  | cons q rest ih =>
    simp only [List.map_cons, List.nodup_cons] at hnd
    rcases List.mem_cons.mp hp with hq | hq
    · subst hq
      have hguard : (p.user == m.sender) = false := by simpa using hne
      simp only [notifyLoop, hguard, Bool.false_eq_true, if_false, if_true]
      rw [notificationsTo_cons_notification, if_pos rfl]
      have hz : notificationsTo p.user (notifyLoop (fun _ => true) rid m rest) = 0 := by
        refine notificationsTo_notifyLoop_eq_zero _ _ rid m rest ?_
        intro r hr hru
        exact hnd.1 (by rw [← hru]; exact List.mem_map_of_mem _ hr)
      rw [hz]
    · have hqp : q.user ≠ p.user := by
        intro hqe
        exact hnd.1 (by rw [hqe]; exact List.mem_map_of_mem _ hq)
      by_cases hg : (q.user == m.sender) = true
      · simp only [notifyLoop, if_pos hg]
        exact ih hnd.2 hq
      · simp only [notifyLoop, hg, Bool.false_eq_true, if_false, if_true]
        rw [notificationsTo_cons_notification, if_neg hqp, ih hnd.2 hq]

theorem mem_notifyLoop_of_mem (rid : String) (m : Message) (ps : List Participant)
    (p : Participant) (hp : p ∈ ps) (hne : p.user ≠ m.sender) :
    ({ channel := .userCh p.user, event := .notificationMessage rid m.id } : Emission) ∈
      notifyLoop (fun _ => true) rid m ps := by
  induction ps with
  | nil => simp at hp
  | cons q rest ih =>
    rcases List.mem_cons.mp hp with hq | hq
    · subst hq
      have hguard : (p.user == m.sender) = false := by simpa using hne
      simp only [notifyLoop, hguard, Bool.false_eq_true, if_false, if_true]
      exact List.mem_cons_self _ _
    · by_cases hg : (q.user == m.sender) = true
      · simp only [notifyLoop, if_pos hg]
        exact ih hq
      · simp only [notifyLoop, hg, Bool.false_eq_true, if_false, if_true]
        exact List.mem_cons_of_mem _ (ih hq)

theorem notifyLoop_emission_shape (emitOk : String → Bool) (rid : String) (m : Message)
    (ps : List Participant) :
    ∀ em ∈ notifyLoop emitOk rid m ps,
      ∃ uid, em =
        { channel := .userCh uid, event := .notificationMessage rid m.id } := by
  induction ps with
  | nil => intro em hem; simp [notifyLoop] at hem
  | cons p rest ih =>
    intro em hem
    by_cases hp : (p.user == m.sender) = true
    · simp only [notifyLoop, if_pos hp] at hem
      exact ih em hem
    · by_cases he : emitOk p.user = true
      · simp only [notifyLoop, hp, Bool.false_eq_true, if_false, he, if_true,
          List.mem_cons] at hem
        rcases hem with hem | hem
        · exact ⟨p.user, hem⟩
        · exact ih em hem
      · simp only [notifyLoop, hp, Bool.false_eq_true, if_false, he] at hem
        simp at hem

/-! ### Lemmas about the persisted store -/

theorem findRoom_id (db : DB) (rid : String) (r : ChatRoom)
    (h : db.findRoom rid = some r) : r.id = rid := by
  have := List.find?_some h
  simpa using this

theorem findMessage_id (db : DB) (mid : String) (m : Message)
    (h : db.findMessage mid = some m) : m.id = mid := by
  have := List.find?_some h
  simpa using this

theorem findRoom_insertMessage (db : DB) (m : Message) (rid : String) :
    (db.insertMessage m).findRoom rid = db.findRoom rid := rfl

theorem find?_rooms_save (rooms : List ChatRoom) (rid : String) (r r2 : ChatRoom)
    (h : rooms.find? (fun x => x.id == rid) = some r) (hid : r2.id = rid) :
    (rooms.map (fun x => if x.id == r2.id then r2 else x)).find?
        (fun x => x.id == rid) = some r2 := by
  induction rooms with
  | nil => simp at h
  | cons x t ih =>
    by_cases hx : x.id = rid
    · have hcond : (x.id == r2.id) = true := by simp [hid, hx]
      have hr2 : (r2.id == rid) = true := by simp [hid]
      simp only [List.map_cons, hcond, if_true]
      simp only [List.find?_cons, hr2, if_true]
    · have hcond : (x.id == r2.id) = false := by
        simp only [beq_eq_false_iff_ne, ne_eq, hid]
        exact hx
      have hxr : (x.id == rid) = false := by simpa using hx
      simp only [List.find?_cons, hxr, Bool.false_eq_true, if_false] at h
      simp only [List.map_cons, hcond, Bool.false_eq_true, if_false]
      simp only [List.find?_cons, hxr, Bool.false_eq_true, if_false]
      exact ih h

theorem findRoom_saveRoom_self (db : DB) (rid : String) (r r2 : ChatRoom)
    (h : db.findRoom rid = some r) (hid : r2.id = rid) :
    (db.saveRoom r2).findRoom rid = some r2 :=
  find?_rooms_save db.rooms rid r r2 h hid

/-! ### Claim C10 -/

/-- Claim C10: for every message with isDeleted true, toJSON replaces the
content field with the fixed placeholder and omits the media field, and
softDelete itself overwrites the stored content with the placeholder and
clears media, so the original content and attachment of a deleted message
are never returned to clients. -/
theorem deleted_content_hidden (m : Message) (now : Nat) (h : m.isDeleted = true) :
    (Message.toJSON m).content = deletedContentPlaceholder ∧
    (Message.toJSON m).media = none ∧
    (m.softDelete now).isDeleted = true ∧
    (m.softDelete now).content = deletedContentPlaceholder ∧
    (m.softDelete now).media = none := by
  refine ⟨?_, ?_, rfl, rfl, rfl⟩ <;> simp [Message.toJSON, h]

/-- Concrete deleted message used by the C10 witness. -/
def msgDeletedW : Message :=
  { id := "m9", chatRoom := "r9", sender := "A",
    content := deletedContentPlaceholder, isDeleted := true, deletedAt := some 1 }

/-- Witness for C10 at a concrete deleted message. -/
theorem deleted_content_hidden_witness :
    msgDeletedW.isDeleted = true ∧
    ((Message.toJSON msgDeletedW).content = deletedContentPlaceholder ∧
     (Message.toJSON msgDeletedW).media = none ∧
     (msgDeletedW.softDelete 3).isDeleted = true ∧
     (msgDeletedW.softDelete 3).content = deletedContentPlaceholder ∧
     (msgDeletedW.softDelete 3).media = none) :=
  ⟨by decide, deleted_content_hidden msgDeletedW 3 (by decide)⟩

/-! ### Claim C7 -/

/-- Claim C7: an edit attempt by a user who is not the sender of the
message fails with an authorization error emitted to the acting
connection only; the stored collections are unchanged and no
message:edited event is emitted. -/
theorem edit_requires_ownership (db : DB) (socketId userId messageId content : String)
    (now : Nat) (m : Message) (hfind : db.findMessage messageId = some m)
    (hne : m.sender ≠ userId) :
    onMessageEdit db socketId userId messageId content now =
      (db, [{ channel := .selfCh socketId,
              event := .errorEvent "You can only edit your own messages" }]) := by
  have hbne : (m.sender != userId) = true := by simpa using hne
  simp [onMessageEdit, handleEditMessage, hfind, hbne]

/-- Concrete store used by the C7 witness. -/
def dbC7 : DB :=
  { messages := [{ id := "m1", chatRoom := "r1", sender := "A", content := "hello" }] }

/-- Witness for C7 at a concrete non-owner edit attempt. -/
theorem edit_requires_ownership_witness :
    dbC7.findMessage "m1" =
      some { id := "m1", chatRoom := "r1", sender := "A", content := "hello" } ∧
    ("A" : String) ≠ "B" ∧
    onMessageEdit dbC7 "sB" "B" "m1" "patched" 5 =
      (dbC7, [{ channel := .selfCh "sB",
                event := .errorEvent "You can only edit your own messages" }]) :=
  ⟨by decide, by decide,
   edit_requires_ownership dbC7 "sB" "B" "m1" "patched" 5
     { id := "m1", chatRoom := "r1", sender := "A", content := "hello" }
     (by decide) (by decide)⟩

/-! ### Claim C4 -/

/-- Claim C4: notifyParticipants never raises to its caller. A rejected
room lookup produces no emissions, a missing room produces no emissions,
and every emission it can produce is a notification:message on a private
user channel, so no error event ever reaches the sending connection from
this path. -/
theorem notify_best_effort (us : List (String × List String)) (emitOk : String → Bool)
    (roomId : String) (m : Message) :
    (∀ e, notifyParticipants us (.error e) emitOk roomId m = []) ∧
    notifyParticipants us (.ok none) emitOk roomId m = [] ∧
    (∀ lookupResult em, em ∈ notifyParticipants us lookupResult emitOk roomId m →
      ∃ uid, em =
        { channel := .userCh uid, event := .notificationMessage roomId m.id }) := by
  refine ⟨fun e => rfl, rfl, ?_⟩
  intro lookupResult em hem
  match lookupResult with
  | .error e => simp [notifyParticipants] at hem
  | .ok none => simp [notifyParticipants] at hem
  | .ok (some room) =>
    exact notifyLoop_emission_shape emitOk roomId m room.participants em hem

/-- Concrete room used by the C4 witness. -/
def roomC4 : ChatRoom :=
  { id := "r4", participants := [{ user := "A" }, { user := "B" }], creator := "A" }

/-- Concrete message used by the C4 witness. -/
def msgC4 : Message := { id := "m4", chatRoom := "r4", sender := "A" }

/-- Witness for C4: rejected lookup, missing room, and the shape of a
concrete emission. -/
theorem notify_best_effort_witness :
    notifyParticipants [] (.error "db failure") (fun _ => true) "r4" msgC4 = [] ∧
    notifyParticipants [] (.ok none) (fun _ => true) "r4" msgC4 = [] ∧
    ∃ uid, ({ channel := .userCh "B", event := .notificationMessage "r4" "m4" } : Emission) =
      { channel := .userCh uid, event := .notificationMessage "r4" msgC4.id } :=
  ⟨(notify_best_effort [] (fun _ => true) "r4" msgC4).1 "db failure",
   (notify_best_effort [] (fun _ => true) "r4" msgC4).2.1,
   (notify_best_effort [] (fun _ => true) "r4" msgC4).2.2 (.ok (some roomC4))
     { channel := .userCh "B", event := .notificationMessage "r4" "m4" } (by decide)⟩

/-! ### Claim C2 -/

/-- Claim C2: for a room resolved by the lookup, notifyParticipants never
emits on the private channel of the sender, emits at most once per
participant, and (when no emit fault occurs) exactly once per non-sender
participant. -/
theorem notify_at_most_once (us : List (String × List String)) (emitOk : String → Bool)
    (roomId : String) (m : Message) (room : ChatRoom)
    (hnd : (room.participants.map Participant.user).Nodup) :
    notificationsTo m.sender (notifyParticipants us (.ok (some room)) emitOk roomId m) = 0 ∧
    (∀ uid, notificationsTo uid
      (notifyParticipants us (.ok (some room)) emitOk roomId m) ≤ 1) ∧
    (∀ p ∈ room.participants, p.user ≠ m.sender →
      notificationsTo p.user
        (notifyParticipants us (.ok (some room)) (fun _ => true) roomId m) = 1) :=
  ⟨notificationsTo_sender_notifyLoop emitOk roomId m room.participants,
   fun uid => notificationsTo_notifyLoop_le_one uid emitOk roomId m room.participants hnd,
   fun p hp hne => notificationsTo_notifyLoop_eq_one p roomId m room.participants hnd hp hne⟩

/-- Concrete room used by the C2 witness. -/
def roomC2 : ChatRoom :=
  { id := "r2", participants := [{ user := "A" }, { user := "B" }, { user := "C" }],
    creator := "A" }

/-- Concrete message used by the C2 witness. -/
def msgC2 : Message := { id := "m2", chatRoom := "r2", sender := "A" }

/-- Witness for C2 with participants A, B, C and sender A. -/
theorem notify_at_most_once_witness :
    (roomC2.participants.map Participant.user).Nodup ∧
    notificationsTo "A" (notifyParticipants [] (.ok (some roomC2)) (fun _ => true) "r2" msgC2) = 0 ∧
    notificationsTo "B" (notifyParticipants [] (.ok (some roomC2)) (fun _ => true) "r2" msgC2) ≤ 1 ∧
    notificationsTo "B" (notifyParticipants [] (.ok (some roomC2)) (fun _ => true) "r2" msgC2) = 1 :=
  ⟨by decide,
   (notify_at_most_once [] (fun _ => true) "r2" msgC2 roomC2 (by decide)).1,
   (notify_at_most_once [] (fun _ => true) "r2" msgC2 roomC2 (by decide)).2.1 "B",
   (notify_at_most_once [] (fun _ => true) "r2" msgC2 roomC2 (by decide)).2.2
     { user := "B" } (by decide) (by decide)⟩

/-! ### Claim C8 -/

/-- Claim C8: running the disconnect path for a connection id that is not
present in the registry is a no-op: the state is unchanged and no
user:offline broadcast is emitted. -/
theorem unregister_idempotent (st : SocketState) (c u : String) (t : Nat)
    (hwf : st.WF) (h1 : mapFind c st.onlineUsers = none)
    (h2 : c ∉ getUserSockets st u) :
    step st (SockOp.disconnect c u t) = (st, []) := by
  have hdel : mapDelete c st.onlineUsers = st.onlineUsers :=
    mapDelete_of_find_none c _ h1
  show disconnect st c u t = (st, [])
  unfold disconnect
  cases hfind : mapFind u st.userSockets with
  | none =>
    rw [hdel]
  | some s =>
    have hcs : c ∉ s := by
      rw [getUserSockets, hfind, Option.getD_some] at h2
      exact h2
    have hsd : setDelete c s = s := setDelete_of_not_mem c s hcs
    have hne : s ≠ [] := WF_find_ne_nil st u s hwf hfind
    dsimp only
    rw [hdel, hsd, if_neg hne, mapSet_of_find_self u s _ hfind]

/-- Concrete registry state used by the C8 witness. -/
def stC8 : SocketState :=
  { onlineUsers := [("s1", "u1")], userSockets := [("u1", ["s1"])], roomMembers := [] }

/-- Witness for C8: disconnecting an unknown socket id leaves the state
untouched and emits nothing. -/
theorem unregister_idempotent_witness :
    stC8.WF ∧ mapFind "s9" stC8.onlineUsers = none ∧
    "s9" ∉ getUserSockets stC8 "u1" ∧
    step stC8 (SockOp.disconnect "s9" "u1" 3) = (stC8, []) :=
  ⟨⟨by decide, by decide⟩, by decide, by decide,
   unregister_idempotent stC8 "s9" "u1" 3 ⟨by decide, by decide⟩ (by decide) (by decide)⟩

/-! ### Claim C9 -/

/-- Claim C9: after any sequence of presence operations from the empty
state, a user is reported online exactly when their live connection set
is non-empty, the online snapshot lists an online user exactly once, and
no user entry with an empty connection set ever exists (the entry is
removed together with the last connection). -/
theorem registry_online_iff_connections (ops : List SockOp) (u : String) :
    (isUserOnline (run {} ops).1 u = true ↔ getUserSockets (run {} ops).1 u ≠ []) ∧
    ((getOnlineUsers (run {} ops).1).count u =
      if isUserOnline (run {} ops).1 u then 1 else 0) ∧
    (∀ s, mapFind u (run {} ops).1.userSockets = some s → s ≠ []) := by
  have hwf : (run {} ops).1.WF := WF_run {} ops WF_empty
  refine ⟨⟨?_, ?_⟩, ?_, ?_⟩
  · intro h
    cases hfind : mapFind u (run {} ops).1.userSockets with
    | none => rw [isUserOnline, hfind] at h; simp at h
    | some s =>
      rw [getUserSockets, hfind, Option.getD_some]
      exact WF_find_ne_nil _ u s hwf hfind
  · intro h
    rw [isUserOnline]
    cases hfind : mapFind u (run {} ops).1.userSockets with
    | none => rw [getUserSockets, hfind] at h; simp at h
    | some s => simp
  · rw [getOnlineUsers, List.count_dedup]
    by_cases h : isUserOnline (run {} ops).1 u = true
    · rw [if_pos ((mapFind_isSome_iff_mem_keys u _).mp h), if_pos h]
    · rw [if_neg (fun hmem => h ((mapFind_isSome_iff_mem_keys u _).mpr hmem)), if_neg h]
  · intro s hs
    exact WF_find_ne_nil _ u s hwf hs

/-- Concrete operation sequence used by the C9 witness: two devices
connect, one disconnects. -/
def opsC9 : List SockOp :=
  [.connect "s1" "u1" "alice", .connect "s2" "u1" "alice", .disconnect "s1" "u1" 4]

/-- Witness for C9: the user is still online with one device left, listed
once in the snapshot. -/
theorem registry_online_iff_connections_witness :
    isUserOnline (run {} opsC9).1 "u1" = true ∧
    getUserSockets (run {} opsC9).1 "u1" = ["s2"] ∧
    ((isUserOnline (run {} opsC9).1 "u1" = true ↔
        getUserSockets (run {} opsC9).1 "u1" ≠ []) ∧
     ((getOnlineUsers (run {} opsC9).1).count "u1" =
       if isUserOnline (run {} opsC9).1 "u1" then 1 else 0) ∧
     (∀ s, mapFind "u1" (run {} opsC9).1.userSockets = some s → s ≠ [])) :=
  ⟨by decide, by decide, registry_online_iff_connections opsC9 "u1"⟩

/-! ### Claim C1 -/

/-- Counterexample to claim C1 as stated: a user who opens two
connections and closes both receives two user:online broadcasts, not
exactly one, because the connection handler broadcasts user:online on
every connection rather than only on the 0 to 1 transition. The offline
side is edge-triggered as claimed. -/
theorem presence_per_connection_online_cex :
    onlineBroadcasts "u1" (run {} (openCloseTrace "u1" "alice" ["s1", "s2"] 6)).2 = 2 ∧
    ¬ onlineBroadcasts "u1" (run {} (openCloseTrace "u1" "alice" ["s1", "s2"] 6)).2 = 1 ∧
    offlineBroadcasts "u1" (run {} (openCloseTrace "u1" "alice" ["s1", "s2"] 6)).2 = 1 := by
  decide

/-- Claim C1 amended: for a user who opens N distinct connections and
then closes all of them, user:online is broadcast once per connection (N
times in total) while user:offline is broadcast exactly once, on the
closing of the last connection. -/
theorem presence_broadcast_amended (u n : String) (t : Nat) (socks : List String)
    (hnd : socks.Nodup) (hne : socks ≠ []) :
    onlineBroadcasts u (run {} (openCloseTrace u n socks t)).2 = socks.length ∧
    offlineBroadcasts u (run {} (openCloseTrace u n socks t)).2 = 1 := by
  have hsplit := run_append {} (socks.map fun c => SockOp.connect c u n)
    (socks.map fun c => SockOp.disconnect c u t)
  constructor
  · rw [openCloseTrace, hsplit]
    dsimp only
    rw [onlineBroadcasts_append, run_connects_online, run_disconnects_online,
      Nat.add_zero]
  · rw [openCloseTrace, hsplit]
    dsimp only
    rw [offlineBroadcasts_append, run_connects_offline]
    have hfind := run_connects_find u n socks {} [] rfl (by simpa using hnd)
    rw [run_disconnects_offline u t socks _ (by simpa using hfind) hnd hne]

/-- Witness for the amended C1 at two connections. -/
theorem presence_broadcast_amended_witness :
    (["s1", "s2"] : List String).Nodup ∧ (["s1", "s2"] : List String) ≠ [] ∧
    onlineBroadcasts "u1" (run {} (openCloseTrace "u1" "alice" ["s1", "s2"] 7)).2 = 2 ∧
    offlineBroadcasts "u1" (run {} (openCloseTrace "u1" "alice" ["s1", "s2"] 7)).2 = 1 :=
  ⟨by decide, by decide,
   (presence_broadcast_amended "u1" "alice" 7 ["s1", "s2"] (by decide) (by decide)).1,
   (presence_broadcast_amended "u1" "alice" 7 ["s1", "s2"] (by decide) (by decide)).2⟩

/-! ### Claim C5 -/

/-- Concrete room with sole participant A, used by the C5 counterexample. -/
def roomC5 : ChatRoom :=
  { id := "r5", participants := [{ user := "A" }], creator := "A" }

/-- Concrete store used by the C5 counterexample. -/
def dbC5 : DB := { rooms := [roomC5] }

/-- Counterexample to claim C5 as stated: the typing handlers perform no
authorization check at all. User B is not a participant of room r5, yet
the typing:start dispatch emits a typing:start event on the room
channel. -/
theorem typing_without_validation_cex :
    dbC5.findRoom "r5" = some roomC5 ∧
    roomC5.isParticipant "B" = false ∧
    onTypingStart "sB" "B" "bob" "r5" =
      [{ channel := .roomExceptSelf "r5" "sB",
         event := .typingStart "B" "bob" "r5" }] := by
  decide

/-- Claim C5 amended: the send, edit, delete and read handlers validate
the actor before emitting (a non-participant sender or non-author editor
or deleter gets only an error event on their own connection, and no room
channel emission of that kind), but the typing:start and typing:stop
handlers validate nothing and emit to the room channel unconditionally. -/
theorem handlers_validation_amended (st : SocketState) (db : DB)
    (sock uid rid mid content musername : String) (replyTo : Option String)
    (nid : String) (now : Nat) (emitOk : String → Bool) :
    (∀ room, db.findRoom rid = some room → room.isParticipant uid = false →
      onMessageSend st db sock uid rid content replyTo nid now emitOk =
        (db, [{ channel := .selfCh sock,
                event := .errorEvent "You are not a member of this chat room" }])) ∧
    (∀ m, db.findMessage mid = some m → m.sender ≠ uid →
      onMessageEdit db sock uid mid content now =
        (db, [{ channel := .selfCh sock,
                event := .errorEvent "You can only edit your own messages" }])) ∧
    (∀ m, db.findMessage mid = some m → m.sender ≠ uid →
      onMessageDelete db sock uid mid now =
        (db, [{ channel := .selfCh sock,
                event := .errorEvent "You can only delete your own messages" }])) ∧
    (∀ room, db.findRoom rid = some room → room.isParticipant uid = false →
      onMessagesRead db sock uid rid now =
        (db, [{ channel := .selfCh sock,
                event := .errorEvent "You are not a member of this chat room" }])) ∧
    onTypingStart sock uid musername rid =
      [{ channel := .roomExceptSelf rid sock,
         event := .typingStart uid musername rid }] ∧
    onTypingStop sock uid rid =
      [{ channel := .roomExceptSelf rid sock, event := .typingStop uid rid }] := by
  refine ⟨?_, ?_, ?_, ?_, rfl, rfl⟩
  · intro room hroom hpart
    simp [onMessageSend, handleSendMessage, hroom, hpart]
  · intro m hfind hne
    have hbne : (m.sender != uid) = true := by simpa using hne
    simp [onMessageEdit, handleEditMessage, hfind, hbne]
  · intro m hfind hne
    have hbne : (m.sender != uid) = true := by simpa using hne
    simp [onMessageDelete, handleDeleteMessage, hfind, hbne]
  · intro room hroom hpart
    simp [onMessagesRead, handleMarkAsRead, hroom, hpart]

/-- Concrete store used by the C5 witness: room r5 with sole participant
A and a message by A; user B is the unauthorized actor. -/
def dbC5W : DB :=
  { rooms := [{ id := "r5", participants := [{ user := "A" }], creator := "A" }],
    messages := [{ id := "m5", chatRoom := "r5", sender := "A", content := "x" }] }

/-- Witness for the amended C5 at concrete unauthorized actions. -/
theorem handlers_validation_amended_witness :
    onMessageSend {} dbC5W "sB" "B" "r5" "hi" none "m6" 0 (fun _ => true) =
      (dbC5W, [{ channel := .selfCh "sB",
                 event := .errorEvent "You are not a member of this chat room" }]) ∧
    onMessageEdit dbC5W "sB" "B" "m5" "patched" 1 =
      (dbC5W, [{ channel := .selfCh "sB",
                 event := .errorEvent "You can only edit your own messages" }]) ∧
    onMessageDelete dbC5W "sB" "B" "m5" 1 =
      (dbC5W, [{ channel := .selfCh "sB",
                 event := .errorEvent "You can only delete your own messages" }]) ∧
    onMessagesRead dbC5W "sB" "B" "r5" 1 =
      (dbC5W, [{ channel := .selfCh "sB",
                 event := .errorEvent "You are not a member of this chat room" }]) ∧
    onTypingStart "sB" "B" "bob" "r5" =
      [{ channel := .roomExceptSelf "r5" "sB",
         event := .typingStart "B" "bob" "r5" }] ∧
    onTypingStop "sB" "B" "r5" =
      [{ channel := .roomExceptSelf "r5" "sB", event := .typingStop "B" "r5" }] :=
  ⟨(handlers_validation_amended {} dbC5W "sB" "B" "r5" "m5" "hi" "bob" none "m6" 0
      (fun _ => true)).1
    { id := "r5", participants := [{ user := "A" }], creator := "A" } (by decide) (by decide),
   (handlers_validation_amended {} dbC5W "sB" "B" "r5" "m5" "patched" "bob" none "m6" 1
      (fun _ => true)).2.1
    { id := "m5", chatRoom := "r5", sender := "A", content := "x" } (by decide) (by decide),
   (handlers_validation_amended {} dbC5W "sB" "B" "r5" "m5" "patched" "bob" none "m6" 1
      (fun _ => true)).2.2.1
    { id := "m5", chatRoom := "r5", sender := "A", content := "x" } (by decide) (by decide),
   (handlers_validation_amended {} dbC5W "sB" "B" "r5" "m5" "patched" "bob" none "m6" 1
      (fun _ => true)).2.2.2.1
    { id := "r5", participants := [{ user := "A" }], creator := "A" } (by decide) (by decide),
   (handlers_validation_amended {} dbC5W "sB" "B" "r5" "m5" "patched" "bob" none "m6" 1
      (fun _ => true)).2.2.2.2.1,
   (handlers_validation_amended {} dbC5W "sB" "B" "r5" "m5" "patched" "bob" none "m6" 1
      (fun _ => true)).2.2.2.2.2⟩

/-! ### Claim C6 -/

/-- Concrete already-deleted message used by C6. -/
def msgC6 : Message :=
  { id := "m6", chatRoom := "r6", sender := "A",
    content := deletedContentPlaceholder, isDeleted := true, deletedAt := some 5 }

/-- Concrete store used by C6. -/
def dbC6 : DB := { messages := [msgC6] }

/-- Counterexample to claim C6 as stated: deleting an already-deleted
message does not fail. The delete handler has no isDeleted check, so the
soft delete runs again (the stored deletedAt changes) and a
message:deleted event is emitted to the room channel. -/
theorem delete_already_deleted_cex :
    msgC6.isDeleted = true ∧
    onMessageDelete dbC6 "sA" "A" "m6" 7 =
      (dbC6.saveMessage (msgC6.softDelete 7),
       [{ channel := .roomCh "r6", event := .messageDeleted "m6" "r6" }]) ∧
    (onMessageDelete dbC6 "sA" "A" "m6" 7).1.findMessage "m6" =
      some { msgC6 with deletedAt := some 7 } ∧
    dbC6.findMessage "m6" ≠ (onMessageDelete dbC6 "sA" "A" "m6" 7).1.findMessage "m6" := by
  decide

/-- Claim C6 amended: editing an already-deleted message fails with the
InvalidState error on the acting connection, leaves the store unchanged
and emits no message:edited event; deleting an already-deleted message
(by its author) succeeds again: the soft delete is re-run, refreshing
deletedAt, and message:deleted is emitted to the room channel once more. -/
theorem deleted_message_ops_amended (db : DB) (sock uid mid content : String) (now : Nat) :
    (∀ m, db.findMessage mid = some m → m.sender = uid → m.isDeleted = true →
      onMessageEdit db sock uid mid content now =
        (db, [{ channel := .selfCh sock,
                event := .errorEvent "Cannot edit deleted message" }])) ∧
    (∀ m, db.findMessage mid = some m → m.sender = uid → m.isDeleted = true →
      onMessageDelete db sock uid mid now =
        (db.saveMessage (m.softDelete now),
         [{ channel := .roomCh m.chatRoom,
            event := .messageDeleted mid m.chatRoom }])) := by
  constructor
  · intro m hfind hs hdel
    have hbne : (m.sender != uid) = false := by simp [hs]
    simp [onMessageEdit, handleEditMessage, hfind, hbne, hdel]
  · intro m hfind hs hdel
    have hbne : (m.sender != uid) = false := by simp [hs]
    simp [onMessageDelete, handleDeleteMessage, hfind, hbne]

/-- Witness for the amended C6 at the concrete deleted message. -/
theorem deleted_message_ops_amended_witness :
    dbC6.findMessage "m6" = some msgC6 ∧ msgC6.sender = "A" ∧ msgC6.isDeleted = true ∧
    onMessageEdit dbC6 "sA" "A" "m6" "patched" 7 =
      (dbC6, [{ channel := .selfCh "sA",
                event := .errorEvent "Cannot edit deleted message" }]) ∧
    onMessageDelete dbC6 "sA" "A" "m6" 7 =
      (dbC6.saveMessage (msgC6.softDelete 7),
       [{ channel := .roomCh "r6", event := .messageDeleted "m6" "r6" }]) :=
  ⟨by decide, by decide, by decide,
   (deleted_message_ops_amended dbC6 "sA" "A" "m6" "patched" 7).1 msgC6
     (by decide) (by decide) (by decide),
   (deleted_message_ops_amended dbC6 "sA" "A" "m6" "patched" 7).2 msgC6
     (by decide) (by decide) (by decide)⟩

/-! ### Claim C3 -/

theorem handleSendMessage_ok (db : DB) (uid rid content : String)
    (replyTo : Option String) (nid : String) (now : Nat) (room : ChatRoom)
    (hroom : db.findRoom rid = some room) (hpart : room.isParticipant uid = true) :
    handleSendMessage db uid rid content replyTo nid now =
      .ok ((db.insertMessage
              { id := nid, chatRoom := rid, sender := uid, content := content,
                messageType := "text", replyTo := replyTo, createdAt := now }).saveRoom
             { room with lastMessage := some nid },
           { id := nid, chatRoom := rid, sender := uid, content := content,
             messageType := "text", replyTo := replyTo, createdAt := now }) := by
  simp [handleSendMessage, hroom, hpart]

theorem onMessageSend_emissions_of_ok (st : SocketState) (db : DB)
    (sock uid rid content : String) (replyTo : Option String) (nid : String)
    (now : Nat) (emitOk : String → Bool) (db2 : DB) (msg : Message)
    (h : handleSendMessage db uid rid content replyTo nid now = .ok (db2, msg)) :
    (onMessageSend st db sock uid rid content replyTo nid now emitOk).2 =
      { channel := .roomCh rid, event := .messageNew msg.id } ::
        notifyParticipants st.userSockets (.ok (db2.findRoom rid)) emitOk rid msg := by
  simp [onMessageSend, h]

/-- Concrete room used by the C3 counterexample, with participants A, B. -/
def roomC3 : ChatRoom :=
  { id := "r3", participants := [{ user := "A" }, { user := "B" }], creator := "A" }

/-- Concrete store used by the C3 counterexample. -/
def dbC3 : DB := { rooms := [roomC3] }

/-- Concrete socket state in which the socket of user B is joined to the
channel of room r3, used by the C3 counterexample. -/
def stC3 : SocketState :=
  (run {} [.connect "sA" "A" "alice", .connect "sB" "B" "bob", .joinRoom "sB" "r3"]).1

/-- Counterexample to claim C3 as stated: participant B is joined to the
room channel at publish time (so B receives the room-channel message:new
delivery), yet the send dispatch still emits a notification:message on
the private channel of B, because notifyParticipants never consults
channel membership. -/
theorem notify_joined_participant_cex :
    sockJoinedToRoom stC3 "sB" "r3" = true ∧
    "sB" ∈ getUserSockets stC3 "B" ∧
    ({ channel := .userCh "B", event := .notificationMessage "r3" "m3" } : Emission) ∈
      (onMessageSend stC3 dbC3 "sA" "A" "r3" "hi" none "m3" 0 (fun _ => true)).2 := by
  decide

/-- Claim C3 amended: the private-channel notification path does not
filter on room-channel membership at all. Whatever the socket state (in
particular, whatever sockets are joined to the room channel), a
successful send emits a notification:message on the private channel of
every participant other than the sender. -/
theorem notify_regardless_of_join (st : SocketState) (db : DB)
    (sock uid rid content : String) (replyTo : Option String) (nid : String)
    (now : Nat) (room : ChatRoom) (p : Participant)
    (hroom : db.findRoom rid = some room) (hpart : room.isParticipant uid = true)
    (hp : p ∈ room.participants) (hne : p.user ≠ uid) :
    ({ channel := .userCh p.user, event := .notificationMessage rid nid } : Emission) ∈
      (onMessageSend st db sock uid rid content replyTo nid now (fun _ => true)).2 := by
  have hsend := handleSendMessage_ok db uid rid content replyTo nid now room hroom hpart
  rw [onMessageSend_emissions_of_ok st db sock uid rid content replyTo nid now
    (fun _ => true) _ _ hsend]
  have hid : ({ room with lastMessage := some nid } : ChatRoom).id = rid :=
    findRoom_id db rid room hroom
  have hfind2 : ((db.insertMessage
      { id := nid, chatRoom := rid, sender := uid, content := content,
        messageType := "text", replyTo := replyTo, createdAt := now }).saveRoom
        { room with lastMessage := some nid }).findRoom rid =
      some { room with lastMessage := some nid } := by
    refine findRoom_saveRoom_self _ rid room _ ?_ hid
    rw [findRoom_insertMessage]
    exact hroom
  rw [hfind2]
  refine List.mem_cons_of_mem _ ?_
  exact mem_notifyLoop_of_mem rid
    { id := nid, chatRoom := rid, sender := uid, content := content,
      messageType := "text", replyTo := replyTo, createdAt := now }
    room.participants p hp hne

/-- Witness for the amended C3: B is joined to the room channel in stC3
and still receives the private notification. -/
theorem notify_regardless_of_join_witness :
    dbC3.findRoom "r3" = some roomC3 ∧
    roomC3.isParticipant "A" = true ∧
    ({ user := "B" } : Participant) ∈ roomC3.participants ∧
    ("B" : String) ≠ "A" ∧
    ({ channel := .userCh "B", event := .notificationMessage "r3" "m3" } : Emission) ∈
      (onMessageSend stC3 dbC3 "sA" "A" "r3" "hi" none "m3" 0 (fun _ => true)).2 :=
  ⟨by decide, by decide, by decide, by decide,
   notify_regardless_of_join stC3 dbC3 "sA" "A" "r3" "hi" none "m3" 0 roomC3
     { user := "B" } (by decide) (by decide) (by decide) (by decide)⟩

end Chat
